import Mathlib

/-!
Shallow embedding of the RPN calculator engine from src/rpncalculator.rs.

Modelling choices:
- Rust f64 values are modelled by the type Rpn.F64: a finite value is an
  exact rational, and the IEEE-754 special values infinity, negative
  infinity and NaN are separate constructors.  Finite arithmetic is exact
  rational arithmetic (no rounding); the special values follow the IEEE
  rules for +, -, *, / (signed zero is conflated with zero, which none of
  the verified properties touches).
- The Rust Vec<f64> stack, whose last element is the top, is modelled as a
  List F64 whose HEAD is the top of the stack (Vec index len-1 = list head).
- An operator fn(&mut CalcStack) -> CalcResult mutates the stack in place
  and returns Ok(()) or an error; mutations persist even when it returns
  an error.  It is modelled as a function CalcStack -> CalcStack x Option
  RpnCalculatorError, returning the stack after the call together with
  none for Ok(()) or some e for Err(e).
- The BTreeMap registry is modelled as an association list where insertion
  prepends, so lookup (first match) sees the latest insertion for a key,
  matching BTreeMap insert/get semantics.
- The evaluation engine RpnCalculator { stack, operators } is passed
  explicitly: evaluate never changes the registry, so the functions take
  the registry and the stack as separate arguments.
-/

namespace Rpn

/-- The error enum RpnCalculatorError of the Rust source, with its four
variants ParsingError, NotEnoughOperands, Quit and IOError. -/
inductive RpnCalculatorError where
  | ParsingError
  | NotEnoughOperands
  | Quit
  | IOError
  deriving DecidableEq, Repr

/-- Model of a Rust f64 value: an exact rational, or one of the IEEE-754
special values. -/
inductive F64 where
  | num (val : ℚ)
  | inf
  | negInf
  | nan
  deriving DecidableEq, Repr, Inhabited

namespace F64

/-- IEEE-754 addition on the model (exact on finite values). -/
def add : F64 → F64 → F64
  | nan, _ => nan
  | _, nan => nan
  | num a, num b => num (a + b)
  | num _, inf => inf
  | inf, num _ => inf
  | num _, negInf => negInf
  | negInf, num _ => negInf
  | inf, inf => inf
  | negInf, negInf => negInf
  | inf, negInf => nan
  | negInf, inf => nan

/-- IEEE-754 subtraction on the model (exact on finite values). -/
def sub : F64 → F64 → F64
  | nan, _ => nan
  | _, nan => nan
  | num a, num b => num (a - b)
  | num _, inf => negInf
  | num _, negInf => inf
  | inf, num _ => inf
  | negInf, num _ => negInf
  | inf, inf => nan
  | inf, negInf => inf
  | negInf, inf => negInf
  | negInf, negInf => nan

/-- IEEE-754 multiplication on the model (exact on finite values). -/
def mul : F64 → F64 → F64
  | nan, _ => nan
  | _, nan => nan
  | num a, num b => num (a * b)
  | num a, inf => if 0 < a then inf else if a < 0 then negInf else nan
  | inf, num b => if 0 < b then inf else if b < 0 then negInf else nan
  | num a, negInf => if 0 < a then negInf else if a < 0 then inf else nan
  | negInf, num b => if 0 < b then negInf else if b < 0 then inf else nan
  | inf, inf => inf
  | inf, negInf => negInf
  | negInf, inf => negInf
  | negInf, negInf => inf

/-- IEEE-754 division on the model (exact on finite values; a nonzero
finite value divided by zero gives a signed infinity, 0/0 gives NaN). -/
def div : F64 → F64 → F64
  | nan, _ => nan
  | _, nan => nan
  | num a, num b =>
      if b = 0 then (if a = 0 then nan else if 0 < a then inf else negInf)
      else num (a / b)
  | num _, inf => num 0
  | num _, negInf => num 0
  | inf, num b => if b < 0 then negInf else inf
  | negInf, num b => if b < 0 then inf else negInf
  | inf, inf => nan
  | inf, negInf => nan
  | negInf, inf => nan
  | negInf, negInf => nan

end F64

/-- CalcStack = Vec<f64>; the head of the list is the top of the stack. -/
abbrev CalcStack := List F64

/-- CalcResult = Result<(), RpnCalculatorError>; none models Ok(()). -/
abbrev CalcResult := Option RpnCalculatorError

/-- OperatorFn = fn(&mut CalcStack) -> CalcResult: the function returns the
stack after the call (mutation) paired with the result. -/
abbrev OperatorFn := CalcStack → CalcStack × CalcResult

/-- OperatorsMap = BTreeMap<&str, OperatorFn>, as an association list. -/
abbrev OperatorsMap := List (String × OperatorFn)

/-- BTreeMap::insert: a later insertion for the same key overrides an
earlier one, because lookup takes the first match. -/
def insertOp (ops : OperatorsMap) (k : String) (f : OperatorFn) : OperatorsMap :=
  (k, f) :: ops

/-- BTreeMap::get / contains_key: first match in the association list. -/
def lookupOp : OperatorsMap → String → Option OperatorFn
  | [], _ => none
  | (k, f) :: rest, tok => if k = tok then some f else lookupOp rest tok

/-- The reads s[i-1], s[i-2], ... performed by the expansion of the
new_operator! macro's fixed-arity form: the list of the top n stack values
in top-to-bottom order, or none (early return with NotEnoughOperands) when
fewer than n values are present. -/
def readVars : ℕ → CalcStack → Option (List F64)
  | 0, _ => some []
  | _ + 1, [] => none
  | n + 1, v :: rest => (readVars n rest).map (fun vs => v :: vs)

/-- Expansion of the fixed-arity form of the new_operator! macro: read the
top n values (top-to-bottom) without mutating; if fewer than n are present
return Err(NotEnoughOperands) with the stack untouched; otherwise pop the
n values, compute the body on them and push the single result. -/
def mkFixedOp (n : ℕ) (body : List F64 → F64) : OperatorFn := fun s =>
  match readVars n s with
  | none => (s, some RpnCalculatorError.NotEnoughOperands)
  | some vars => (body vars :: s.drop n, none)

/-- new_operator!(ops, "+", [y, x], \x7b x + y \x7d): y is the top, x the
second from top, the result is x + y. -/
def addOp : OperatorFn :=
  mkFixedOp 2 (fun vars =>
    match vars with
    | [y, x] => F64.add x y
    | _ => F64.nan)

/-- new_operator!(ops, "-", [y, x], \x7b x - y \x7d). -/
def subOp : OperatorFn :=
  mkFixedOp 2 (fun vars =>
    match vars with
    | [y, x] => F64.sub x y
    | _ => F64.nan)

/-- new_operator!(ops, "*", [y, x], \x7b x * y \x7d). -/
def mulOp : OperatorFn :=
  mkFixedOp 2 (fun vars =>
    match vars with
    | [y, x] => F64.mul x y
    | _ => F64.nan)

/-- new_operator!(ops, "/", [y, x], \x7b x / y \x7d). -/
def divOp : OperatorFn :=
  mkFixedOp 2 (fun vars =>
    match vars with
    | [y, x] => F64.div x y
    | _ => F64.nan)

/-- default_operators(): the registry holding the four arithmetic
operators, inserted in the source order +, -, *, /. -/
def default_operators : OperatorsMap :=
  insertOp (insertOp (insertOp (insertOp [] "+" addOp) "-" subOp) "*" mulOp) "/" divOp

/-- RpnCalculator::top: self.stack.last(), i.e. the head of the model
list; takes &self, so it is a pure read of the state. -/
def top (s : CalcStack) : Option F64 :=
  s.head?

/- ---------- Rust f64 string parsing (str::parse::<f64>) ---------- -/

/-- Value of a decimal digit character. -/
def charDigit? (c : Char) : Option ℕ :=
  if c.isDigit then some (c.toNat - '0'.toNat) else none

/-- Reads a run of decimal digits left to right, accumulating the value;
none when a non-digit occurs. -/
def digitsAux : List Char → ℕ → Option ℕ
  | [], acc => some acc
  | c :: rest, acc =>
      match charDigit? c with
      | some d => digitsAux rest (acc * 10 + d)
      | none => none

/-- Value of a possibly empty all-digit character run (empty reads as 0). -/
def digitsVal? (cs : List Char) : Option ℕ :=
  digitsAux cs 0

/-- Value of a nonempty all-digit character run. -/
def digitsValNE? (cs : List Char) : Option ℕ :=
  if cs.isEmpty then none else digitsVal? cs

/-- Splits a character list at the first character satisfying p: returns
the prefix and, when a split character was found, the suffix after it. -/
def splitAtChar (p : Char → Bool) : List Char → List Char × Option (List Char)
  | [] => ([], none)
  | c :: rest =>
      if p c then ([], some rest)
      else
        let r := splitAtChar p rest
        (c :: r.1, r.2)

/-- The mantissa of the Rust float grammar: Digit+ | Digit+ '.' Digit* |
Digit* '.' Digit+ (at most one dot, at least one digit overall). -/
def parseMantissa (cs : List Char) : Option ℚ :=
  let sd := splitAtChar (fun c => c = '.') cs
  match sd.2 with
  | none => (digitsValNE? cs).map (fun n => (n : ℚ))
  | some fracPart =>
      let intPart := sd.1
      if intPart.isEmpty ∧ fracPart.isEmpty then none
      else
        (digitsVal? intPart).bind (fun i =>
          (digitsVal? fracPart).map (fun f =>
            (i : ℚ) + (f : ℚ) / (10 : ℚ) ^ fracPart.length))

/-- The exponent of the Rust float grammar: Sign? Digit+. -/
def parseExp (cs : List Char) : Option ℤ :=
  match cs with
  | '+' :: rest => (digitsValNE? rest).map (fun n => (n : ℤ))
  | '-' :: rest => (digitsValNE? rest).map (fun n => -(n : ℤ))
  | _ => (digitsValNE? cs).map (fun n => (n : ℤ))

/-- Scales a mantissa by 10^e for an integer exponent e. -/
def scaleExp (m : ℚ) : ℤ → ℚ
  | Int.ofNat n => m * (10 : ℚ) ^ n
  | Int.negSucc n => m / (10 : ℚ) ^ (n + 1)

/-- The Number production of the Rust float grammar: Mantissa Exp? where
Exp starts with 'e' or 'E'. -/
def parseNumber (cs : List Char) : Option ℚ :=
  let se := splitAtChar (fun c => c = 'e' ∨ c = 'E') cs
  (parseMantissa se.1).bind (fun m =>
    match se.2 with
    | none => some m
    | some ecs => (parseExp ecs).map (fun e => scaleExp m e))

/-- str::parse::<f64>, following the documented grammar
Sign? (inf | infinity | nan | Number), case-insensitive on the special
words; the finite value is read as an exact rational. -/
def parseF64 (s : String) : Option F64 :=
  let cs := s.toList
  let sr : Bool × List Char :=
    match cs with
    | '+' :: r => (false, r)
    | '-' :: r => (true, r)
    | r => (false, r)
  let neg := sr.1
  let low := sr.2.map Char.toLower
  if low = "inf".toList ∨ low = "infinity".toList then
    some (if neg then F64.negInf else F64.inf)
  else if low = "nan".toList then
    some F64.nan
  else
    (parseNumber sr.2).map (fun q => F64.num (if neg then -q else q))

/- ---------- The evaluation engine ---------- -/

/-- RpnCalculator::parse_and_push: token.parse::<f64>()? pushed onto the
stack; a ParseFloatError is converted to ParsingError by the From impl. -/
def parse_and_push (tok : String) (s : CalcStack) : CalcStack × CalcResult :=
  match parseF64 tok with
  | some v => (v :: s, none)
  | none => (s, some RpnCalculatorError.ParsingError)

/-- RpnCalculator::parse_token: if the registry contains the token, invoke
the bound operator on the stack, else parse_and_push. -/
def parse_token (ops : OperatorsMap) (tok : String) (s : CalcStack) :
    CalcStack × CalcResult :=
  match lookupOp ops tok with
  | some f => f s
  | none => parse_and_push tok s

/-- The token loop of RpnCalculator::evaluate: process tokens in order,
stopping with the first failure (the ? operator); the stack returned with
a failure is the stack at the moment the failure was returned. -/
def evalTokens (ops : OperatorsMap) : List String → CalcStack → CalcStack × CalcResult
  | [], s => (s, none)
  | t :: ts, s =>
      match parse_token ops t s with
      | (s', none) => evalTokens ops ts s'
      | (s', some e) => (s', some e)

/-- Accumulator loop for str::split_whitespace: acc holds the characters
of the token being read, in reverse order. -/
def splitWsAux : List Char → List Char → List String
  | [], acc => if acc.isEmpty then [] else [String.mk acc.reverse]
  | c :: rest, acc =>
      if c.isWhitespace then
        if acc.isEmpty then splitWsAux rest []
        else String.mk acc.reverse :: splitWsAux rest []
      else splitWsAux rest (c :: acc)

/-- str::split_whitespace: the maximal nonempty runs of non-whitespace
characters, in order (the concrete inputs verified here use only ASCII
spaces, where Rust's Unicode whitespace and Char.isWhitespace agree). -/
def splitWs (input : String) : List String :=
  splitWsAux input.toList []

/-- RpnCalculator::evaluate: split the input line on whitespace and feed
the tokens, in order, to parse_token. -/
def evaluate (ops : OperatorsMap) (input : String) (s : CalcStack) :
    CalcStack × CalcResult :=
  evalTokens ops (splitWs input) s

/-- A raw operator (second form of new_operator!) that pops one value and
then fails, as in new_operator!(ops, "!", s, \x7b s.pop(); Err(Quit) \x7d):
the pop persists even though the operator returns an error. -/
def popFailOp : OperatorFn := fun s =>
  (s.drop 1, some RpnCalculatorError.Quit)

/-- new_operator!(calc.operators, "?", [], \x7b 10.0 \x7d): the arity-0
operator of the extension test, which always pushes 10.0. -/
def questionOp : OperatorFn :=
  mkFixedOp 0 (fun _ => F64.num 10)

/-- A registry is atomic when every registered operator leaves the stack
unchanged whenever it fails.  Every operator built by the fixed-arity form
of new_operator! has this property; a raw operator need not. -/
def atomicOps (ops : OperatorsMap) : Prop :=
  ∀ k f, lookupOp ops k = some f → ∀ s s' e, f s = (s', some e) → s' = s

/- ---------- Helper lemmas ---------- -/

theorem readVars_eq_none {n : ℕ} {s : CalcStack} (h : s.length < n) :
    readVars n s = none := by
  induction n generalizing s with
  | zero => exact absurd h (Nat.not_lt_zero _)
  | succ n ih =>
      cases s with
      | nil => rfl
      | cons v rest =>
          simp only [readVars]
          rw [ih (by simpa using Nat.lt_of_succ_lt_succ h)]
          rfl

theorem mkFixedOp_underflow (n : ℕ) (body : List F64 → F64) {s : CalcStack}
    (h : s.length < n) :
    mkFixedOp n body s = (s, some RpnCalculatorError.NotEnoughOperands) := by
  unfold mkFixedOp
  rw [readVars_eq_none h]

theorem mkFixedOp_fail {n : ℕ} {body : List F64 → F64} {s s' : CalcStack}
    {e : RpnCalculatorError}
    (h : mkFixedOp n body s = (s', some e)) :
    s' = s ∧ e = RpnCalculatorError.NotEnoughOperands := by
  unfold mkFixedOp at h
  cases hr : readVars n s with
  | none =>
      rw [hr] at h
      simp only [Prod.mk.injEq, Option.some.injEq] at h
      exact ⟨h.1.symm, h.2.symm⟩
  | some vars =>
      rw [hr] at h
      simp at h

theorem default_lookup_cases {k : String} {f : OperatorFn}
    (h : lookupOp default_operators k = some f) :
    f = addOp ∨ f = subOp ∨ f = mulOp ∨ f = divOp := by
  simp only [default_operators, insertOp, lookupOp] at h
  split_ifs at h <;> simp_all

theorem default_operators_atomic : atomicOps default_operators := by
  intro k f hk s s' e hf
  rcases default_lookup_cases hk with h | h | h | h <;> subst h <;>
    exact (mkFixedOp_fail hf).1

theorem default_operators_err {k : String} {f : OperatorFn}
    (hk : lookupOp default_operators k = some f) {s s' : CalcStack}
    {e : RpnCalculatorError} (hf : f s = (s', some e)) :
    e = RpnCalculatorError.NotEnoughOperands := by
  rcases default_lookup_cases hk with h | h | h | h <;> subst h <;>
    exact (mkFixedOp_fail hf).2

theorem parse_token_push {ops : OperatorsMap} {tok : String} {v : F64}
    (h1 : lookupOp ops tok = none) (h2 : parseF64 tok = some v)
    (s : CalcStack) :
    parse_token ops tok s = (v :: s, none) := by
  simp [parse_token, parse_and_push, h1, h2]

theorem parse_token_opr {ops : OperatorsMap} {tok : String} {f : OperatorFn}
    (h : lookupOp ops tok = some f) (s : CalcStack) :
    parse_token ops tok s = f s := by
  simp [parse_token, h]

theorem parse_token_parse_fail {ops : OperatorsMap} {tok : String}
    (h1 : lookupOp ops tok = none) (h2 : parseF64 tok = none)
    (s : CalcStack) :
    parse_token ops tok s = (s, some RpnCalculatorError.ParsingError) := by
  simp [parse_token, parse_and_push, h1, h2]

theorem evalTokens_cons_ok {ops : OperatorsMap} {t : String} {s s' : CalcStack}
    (h : parse_token ops t s = (s', none)) (ts : List String) :
    evalTokens ops (t :: ts) s = evalTokens ops ts s' := by
  simp only [evalTokens]
  rw [h]

theorem evalTokens_cons_err {ops : OperatorsMap} {t : String} {s s' : CalcStack}
    {e : RpnCalculatorError}
    (h : parse_token ops t s = (s', some e)) (ts : List String) :
    evalTokens ops (t :: ts) s = (s', some e) := by
  simp only [evalTokens]
  rw [h]

theorem evalTokens_append {ops : OperatorsMap} (pre rest : List String)
    {s s' : CalcStack} (h : evalTokens ops pre s = (s', none)) :
    evalTokens ops (pre ++ rest) s = evalTokens ops rest s' := by
  induction pre generalizing s with
  | nil =>
      simp only [evalTokens, Prod.mk.injEq] at h
      rw [List.nil_append, h.1]
  | cons t ts ih =>
      cases hp : parse_token ops t s with
      | mk s₁ r =>
          cases r with
          | none =>
              rw [evalTokens_cons_ok hp] at h
              rw [List.cons_append, evalTokens_cons_ok hp]
              exact ih h
          | some e =>
              rw [evalTokens_cons_err hp] at h
              simp at h

theorem parse_token_fail_stable {ops : OperatorsMap} (hA : atomicOps ops)
    {t : String} {s s₂ : CalcStack} {e : RpnCalculatorError}
    (h : parse_token ops t s = (s₂, some e)) : s₂ = s := by
  cases hl : lookupOp ops t with
  | some f =>
      rw [parse_token_opr hl] at h
      exact hA t f hl s s₂ e h
  | none =>
      simp only [parse_token, hl] at h
      unfold parse_and_push at h
      cases hp : parseF64 t with
      | some v => rw [hp] at h; simp at h
      | none =>
          rw [hp] at h
          simp only [Prod.mk.injEq, Option.some.injEq] at h
          exact h.1.symm

theorem addOp_apply (a b : F64) (s : CalcStack) :
    addOp (b :: a :: s) = (F64.add a b :: s, none) := rfl

theorem subOp_apply (a b : F64) (s : CalcStack) :
    subOp (b :: a :: s) = (F64.sub a b :: s, none) := rfl

theorem mulOp_apply (a b : F64) (s : CalcStack) :
    mulOp (b :: a :: s) = (F64.mul a b :: s, none) := rfl

theorem divOp_apply (a b : F64) (s : CalcStack) :
    divOp (b :: a :: s) = (F64.div a b :: s, none) := rfl

theorem lookup_default_add : lookupOp default_operators "+" = some addOp := rfl

theorem lookup_default_sub : lookupOp default_operators "-" = some subOp := rfl

theorem lookup_default_mul : lookupOp default_operators "*" = some mulOp := rfl

theorem lookup_default_div : lookupOp default_operators "/" = some divOp := rfl

/- ---------- Claim theorems ---------- -/

/-- C1: For the default registry, each arithmetic operator computes
(second-from-top) OP (top): for tokens that push values a then b,
evaluating a b + leaves a + b on top, and likewise for -, * and /; in
particular evaluating 6 2 - leaves 4 on top, not -4. -/
theorem c1_default_arith_operand_order
    (ta tb : String) (a b : F64) (s : CalcStack)
    (hta : lookupOp default_operators ta = none) (hpa : parseF64 ta = some a)
    (htb : lookupOp default_operators tb = none) (hpb : parseF64 tb = some b) :
    evalTokens default_operators [ta, tb, "+"] s = (F64.add a b :: s, none) ∧
    evalTokens default_operators [ta, tb, "-"] s = (F64.sub a b :: s, none) ∧
    evalTokens default_operators [ta, tb, "*"] s = (F64.mul a b :: s, none) ∧
    evalTokens default_operators [ta, tb, "/"] s = (F64.div a b :: s, none) ∧
    top (evalTokens default_operators [ta, tb, "+"] s).1 = some (F64.add a b) ∧
    evaluate default_operators "6 2 -" [] = ([F64.num 4], none) ∧
    top (evaluate default_operators "6 2 -" []).1 = some (F64.num 4) := by
  have hadd : evalTokens default_operators [ta, tb, "+"] s = (F64.add a b :: s, none) := by
    rw [evalTokens_cons_ok (parse_token_push hta hpa s) [tb, "+"],
        evalTokens_cons_ok (parse_token_push htb hpb (a :: s)) ["+"],
        evalTokens_cons_ok (by rw [parse_token_opr lookup_default_add]; exact addOp_apply a b s) []]
    rfl
  have hsub : evalTokens default_operators [ta, tb, "-"] s = (F64.sub a b :: s, none) := by
    rw [evalTokens_cons_ok (parse_token_push hta hpa s) [tb, "-"],
        evalTokens_cons_ok (parse_token_push htb hpb (a :: s)) ["-"],
        evalTokens_cons_ok (by rw [parse_token_opr lookup_default_sub]; exact subOp_apply a b s) []]
    rfl
  have hmul : evalTokens default_operators [ta, tb, "*"] s = (F64.mul a b :: s, none) := by
    rw [evalTokens_cons_ok (parse_token_push hta hpa s) [tb, "*"],
        evalTokens_cons_ok (parse_token_push htb hpb (a :: s)) ["*"],
        evalTokens_cons_ok (by rw [parse_token_opr lookup_default_mul]; exact mulOp_apply a b s) []]
    rfl
  have hdiv : evalTokens default_operators [ta, tb, "/"] s = (F64.div a b :: s, none) := by
    rw [evalTokens_cons_ok (parse_token_push hta hpa s) [tb, "/"],
        evalTokens_cons_ok (parse_token_push htb hpb (a :: s)) ["/"],
        evalTokens_cons_ok (by rw [parse_token_opr lookup_default_div]; exact divOp_apply a b s) []]
    rfl
  have hc : evaluate default_operators "6 2 -" [] = ([F64.num 4], none) := by
    rw [show evaluate default_operators "6 2 -" [] =
          evalTokens default_operators ["6", "2", "-"] [] from rfl,
        evalTokens_cons_ok (parse_token_push (by rfl) (show parseF64 "6" = some (F64.num 6) from rfl) []) ["2", "-"],
        evalTokens_cons_ok (parse_token_push (by rfl) (show parseF64 "2" = some (F64.num 2) from rfl) [F64.num 6]) ["-"],
        evalTokens_cons_ok (by rw [parse_token_opr lookup_default_sub]; exact subOp_apply (F64.num 6) (F64.num 2) []) []]
    norm_num [evalTokens, F64.sub]
  exact ⟨hadd, hsub, hmul, hdiv, by rw [hadd]; rfl, hc, by rw [hc]; rfl⟩

/-- C1 witness: the theorem applied to the tokens 6 and 2. -/
theorem c1_default_arith_operand_order_witness :
    evalTokens default_operators ["6", "2", "-"] [] =
      (F64.sub (F64.num 6) (F64.num 2) :: [], none) :=
  (c1_default_arith_operand_order "6" "2" (F64.num 6) (F64.num 2) [] rfl rfl rfl rfl).2.1

/-- C2: A fixed-arity operator of declared arity n invoked on a stack of
fewer than n values fails with NotEnoughOperands and leaves the stack
exactly unchanged; in particular the four default arity-2 operators, and
concretely evaluate of a plus sign from stack holding 1.0 fails with
NotEnoughOperands while top still yields 1.0. -/
theorem c2_underflow_no_partial_pop (n : ℕ) (body : List F64 → F64)
    (s : CalcStack) (h : s.length < n) :
    mkFixedOp n body s = (s, some RpnCalculatorError.NotEnoughOperands) ∧
    (∀ s₂ : CalcStack, s₂.length < 2 →
        addOp s₂ = (s₂, some RpnCalculatorError.NotEnoughOperands) ∧
        subOp s₂ = (s₂, some RpnCalculatorError.NotEnoughOperands) ∧
        mulOp s₂ = (s₂, some RpnCalculatorError.NotEnoughOperands) ∧
        divOp s₂ = (s₂, some RpnCalculatorError.NotEnoughOperands)) ∧
    evaluate default_operators "+" [F64.num 1] =
      ([F64.num 1], some RpnCalculatorError.NotEnoughOperands) ∧
    top [F64.num 1] = some (F64.num 1) := by
  refine ⟨mkFixedOp_underflow n body h, ?_, rfl, rfl⟩
  intro s₂ h₂
  exact ⟨mkFixedOp_underflow 2 _ h₂, mkFixedOp_underflow 2 _ h₂,
         mkFixedOp_underflow 2 _ h₂, mkFixedOp_underflow 2 _ h₂⟩

/-- C2 witness: the theorem applied at arity 2 on the one-element stack. -/
theorem c2_underflow_no_partial_pop_witness :
    mkFixedOp 2 (fun _ => F64.nan) [F64.num 1] =
      ([F64.num 1], some RpnCalculatorError.NotEnoughOperands) :=
  (c2_underflow_no_partial_pop 2 (fun _ => F64.nan) [F64.num 1] (by decide)).1

/-- C3 counterexample: with a raw operator that pops and then fails
(constructible with the second form of new_operator!), the failing token
does NOT leave the stack as it was when its processing began: evaluating
the line with tokens 1 then the raw operator ends with an empty stack,
while the stack was one-element when the failing token started. -/
theorem c3_raw_op_counterexample :
    evaluate (insertOp default_operators "!" popFailOp) "1 !" [] =
      ([], some RpnCalculatorError.Quit) ∧
    evaluate (insertOp default_operators "!" popFailOp) "1" [] =
      ([F64.num 1], none) ∧
    ([] : CalcStack) ≠ [F64.num 1] :=
  ⟨rfl, rfl, by decide⟩

/-- C3 (amended): for every registry whose operators leave the stack
unchanged whenever they fail (true of every fixed-arity operator and of
the whole default registry), evaluate processes the tokens strictly in
order and stops at the first failing token: its failure is returned,
later tokens are not evaluated, the effects of the earlier tokens remain,
and the failing token leaves the stack as it was when its processing
began. -/
theorem c3_first_failure_stops_line (ops : OperatorsMap) (hA : atomicOps ops)
    (pre : List String) (t : String) (post : List String) (s s' : CalcStack)
    (e : RpnCalculatorError)
    (hpre : evalTokens ops pre s = (s', none))
    (ht : (parse_token ops t s').2 = some e) :
    evalTokens ops (pre ++ t :: post) s = (s', some e) := by
  rw [evalTokens_append pre (t :: post) hpre]
  cases hp : parse_token ops t s' with
  | mk s₂ r =>
      rw [hp] at ht
      simp only at ht
      subst ht
      have hst : s₂ = s' := parse_token_fail_stable hA hp
      subst hst
      exact evalTokens_cons_err hp post

/-- C3 witness: the amended theorem applied with the default registry to
the line 1 + 2, whose second token underflows. -/
theorem c3_first_failure_stops_line_witness :
    evalTokens default_operators (["1"] ++ "+" :: ["2"]) [] =
      ([F64.num 1], some RpnCalculatorError.NotEnoughOperands) :=
  c3_first_failure_stops_line default_operators default_operators_atomic
    ["1"] "+" ["2"] [] [F64.num 1] RpnCalculatorError.NotEnoughOperands rfl rfl

/-- C4: top returns the current top-of-stack value without mutating the
engine (it is a pure read of the state), and yields no value exactly when
the stack holds no elements (the EmptyStack failure of the spec). -/
theorem c4_top_behavior (s : CalcStack) :
    (top s = none ↔ s = []) ∧
    ∀ (v : F64) (rest : CalcStack), top (v :: rest) = some v := by
  constructor
  · cases s <;> simp [top]
  · intro v rest
    rfl

/-- C5: a token that neither matches a registry key nor parses as a float
literal fails with ParsingError and leaves the stack unchanged;
concretely the token garbage against the default registry. -/
theorem c5_unknown_token_parsing_error (ops : OperatorsMap) (tok : String)
    (s : CalcStack) (h1 : lookupOp ops tok = none) (h2 : parseF64 tok = none) :
    parse_token ops tok s = (s, some RpnCalculatorError.ParsingError) ∧
    evalTokens ops [tok] s = (s, some RpnCalculatorError.ParsingError) ∧
    evaluate default_operators "garbage" s =
      (s, some RpnCalculatorError.ParsingError) := by
  have hp := parse_token_parse_fail h1 h2 s
  refine ⟨hp, ?_, ?_⟩
  · rw [evalTokens_cons_err hp]
  · rw [show evaluate default_operators "garbage" s =
          evalTokens default_operators ["garbage"] s from rfl,
        evalTokens_cons_err (parse_token_parse_fail (by rfl) (by rfl) s)]

/-- C5 witness: the theorem applied to the token garbage. -/
theorem c5_unknown_token_parsing_error_witness :
    parse_token default_operators "garbage" [] =
      ([], some RpnCalculatorError.ParsingError) :=
  (c5_unknown_token_parsing_error default_operators "garbage" [] rfl rfl).1

/-- C6: on a fresh default engine, the canonical line evaluates
successfully and leaves a value within 1e-4 of 85.2974 on top (the model
computes with exact rationals; the 1e-4 tolerance dwarfs double rounding). -/
theorem c6_canonical_example :
    evaluate default_operators "19 2.14 + 4.5 2 4.3 / - *" [] =
      ([F64.num (366779/4300)], none) ∧
    top (evaluate default_operators "19 2.14 + 4.5 2 4.3 / - *" []).1 =
      some (F64.num (366779/4300)) ∧
    |(366779 : ℚ)/4300 - 852974/10000| < 1/10000 := by
  have p214 : parseF64 "2.14" = some (F64.num (107/50)) := by
    simp [parseF64, parseNumber, parseMantissa, splitAtChar, digitsValNE?,
          digitsVal?, digitsAux, charDigit?]
    norm_num
  have p45 : parseF64 "4.5" = some (F64.num (9/2)) := by
    simp [parseF64, parseNumber, parseMantissa, splitAtChar, digitsValNE?,
          digitsVal?, digitsAux, charDigit?]
    norm_num
  have p43 : parseF64 "4.3" = some (F64.num (43/10)) := by
    simp [parseF64, parseNumber, parseMantissa, splitAtChar, digitsValNE?,
          digitsVal?, digitsAux, charDigit?]
    norm_num
  have hmain : evaluate default_operators "19 2.14 + 4.5 2 4.3 / - *" [] =
      ([F64.num (366779/4300)], none) := by
    calc evaluate default_operators "19 2.14 + 4.5 2 4.3 / - *" []
        = evalTokens default_operators
            ["19", "2.14", "+", "4.5", "2", "4.3", "/", "-", "*"] [] := rfl
      _ = evalTokens default_operators
            ["2.14", "+", "4.5", "2", "4.3", "/", "-", "*"]
            [F64.num 19] := evalTokens_cons_ok rfl _
      _ = evalTokens default_operators
            ["+", "4.5", "2", "4.3", "/", "-", "*"]
            [F64.num (107/50), F64.num 19] :=
          evalTokens_cons_ok (parse_token_push (by rfl) p214 _) _
      _ = evalTokens default_operators
            ["4.5", "2", "4.3", "/", "-", "*"]
            [F64.add (F64.num 19) (F64.num (107/50))] := evalTokens_cons_ok rfl _
      _ = evalTokens default_operators
            ["2", "4.3", "/", "-", "*"]
            [F64.num (9/2), F64.add (F64.num 19) (F64.num (107/50))] :=
          evalTokens_cons_ok (parse_token_push (by rfl) p45 _) _
      _ = evalTokens default_operators
            ["4.3", "/", "-", "*"]
            [F64.num 2, F64.num (9/2), F64.add (F64.num 19) (F64.num (107/50))] :=
          evalTokens_cons_ok rfl _
      _ = evalTokens default_operators
            ["/", "-", "*"]
            [F64.num (43/10), F64.num 2, F64.num (9/2),
             F64.add (F64.num 19) (F64.num (107/50))] :=
          evalTokens_cons_ok (parse_token_push (by rfl) p43 _) _
      _ = evalTokens default_operators
            ["-", "*"]
            [F64.div (F64.num 2) (F64.num (43/10)), F64.num (9/2),
             F64.add (F64.num 19) (F64.num (107/50))] := evalTokens_cons_ok rfl _
      _ = evalTokens default_operators
            ["*"]
            [F64.sub (F64.num (9/2)) (F64.div (F64.num 2) (F64.num (43/10))),
             F64.add (F64.num 19) (F64.num (107/50))] := evalTokens_cons_ok rfl _
      _ = evalTokens default_operators []
            [F64.mul (F64.add (F64.num 19) (F64.num (107/50)))
               (F64.sub (F64.num (9/2)) (F64.div (F64.num 2) (F64.num (43/10))))] :=
          evalTokens_cons_ok rfl _
      _ = ([F64.mul (F64.add (F64.num 19) (F64.num (107/50)))
               (F64.sub (F64.num (9/2)) (F64.div (F64.num 2) (F64.num (43/10))))],
           none) := rfl
      _ = ([F64.num (366779/4300)], none) := by
          norm_num [F64.add, F64.sub, F64.mul, F64.div]
  refine ⟨hmain, by rw [hmain]; rfl, ?_⟩
  rw [abs_sub_lt_iff]
  constructor <;> norm_num

/-- C7: after inserting a custom arity-0 operator bound to the question
mark symbol that always pushes 10.0 into the default registry, evaluating
the line with tokens question mark, 2, plus on a fresh engine succeeds
and leaves 12.0 on top. -/
theorem c7_custom_operator_composes :
    evaluate (insertOp default_operators "?" questionOp) "? 2 +" [] =
      ([F64.num 12], none) ∧
    top (evaluate (insertOp default_operators "?" questionOp) "? 2 +" []).1 =
      some (F64.num 12) := by
  have hmain : evaluate (insertOp default_operators "?" questionOp) "? 2 +" [] =
      ([F64.num 12], none) := by
    calc evaluate (insertOp default_operators "?" questionOp) "? 2 +" []
        = evalTokens (insertOp default_operators "?" questionOp)
            ["?", "2", "+"] [] := rfl
      _ = evalTokens (insertOp default_operators "?" questionOp)
            ["2", "+"] [F64.num 10] := evalTokens_cons_ok rfl _
      _ = evalTokens (insertOp default_operators "?" questionOp)
            ["+"] [F64.num 2, F64.num 10] := evalTokens_cons_ok rfl _
      _ = evalTokens (insertOp default_operators "?" questionOp)
            [] [F64.add (F64.num 10) (F64.num 2)] := evalTokens_cons_ok rfl _
      _ = ([F64.add (F64.num 10) (F64.num 2)], none) := rfl
      _ = ([F64.num 12], none) := by norm_num [F64.add]
  exact ⟨hmain, by rw [hmain]; rfl⟩

/-- C8: a successful default arity-2 operator application on a stack with
b on top of a on top of s yields exactly the result pushed onto s: the
frame below the operands is preserved and the length shrinks by one. -/
theorem c8_arith_frame (a b : F64) (s : CalcStack) :
    addOp (b :: a :: s) = (F64.add a b :: s, none) ∧
    subOp (b :: a :: s) = (F64.sub a b :: s, none) ∧
    mulOp (b :: a :: s) = (F64.mul a b :: s, none) ∧
    divOp (b :: a :: s) = (F64.div a b :: s, none) ∧
    (addOp (b :: a :: s)).1.length + 1 = (b :: a :: s).length := by
  refine ⟨rfl, rfl, rfl, rfl, ?_⟩
  rw [addOp_apply]
  simp

/-- C9: with the default registry, evaluate can only fail with
ParsingError or NotEnoughOperands; the Quit and IOError kinds are never
returned by evaluate itself. -/
theorem c9_default_registry_error_kinds (ts : List String) (s : CalcStack)
    (e : RpnCalculatorError)
    (h : (evalTokens default_operators ts s).2 = some e) :
    e = RpnCalculatorError.ParsingError ∨
    e = RpnCalculatorError.NotEnoughOperands := by
  induction ts generalizing s with
  | nil => simp [evalTokens] at h
  | cons t ts ih =>
      cases hp : parse_token default_operators t s with
      | mk s₁ r =>
          cases r with
          | none =>
              rw [evalTokens_cons_ok hp] at h
              exact ih s₁ h
          | some e₁ =>
              rw [evalTokens_cons_err hp] at h
              simp only [Option.some.injEq] at h
              subst h
              cases hl : lookupOp default_operators t with
              | some f =>
                  rw [parse_token_opr hl] at hp
                  exact Or.inr (default_operators_err hl hp)
              | none =>
                  simp only [parse_token, hl] at hp
                  unfold parse_and_push at hp
                  cases hq : parseF64 t with
                  | some v => rw [hq] at hp; simp at hp
                  | none =>
                      rw [hq] at hp
                      simp only [Prod.mk.injEq, Option.some.injEq] at hp
                      exact Or.inl hp.2.symm

/-- C9 witness: the theorem applied to the failing line garbage. -/
theorem c9_default_registry_error_kinds_witness :
    RpnCalculatorError.ParsingError = RpnCalculatorError.ParsingError ∨
    RpnCalculatorError.ParsingError = RpnCalculatorError.NotEnoughOperands :=
  c9_default_registry_error_kinds ["garbage"] [] RpnCalculatorError.ParsingError rfl

/-- C10: the tokens inf, -inf and NaN are accepted by f64 parsing, so
evaluate succeeds and pushes the corresponding IEEE-754 special value
instead of failing with ParsingError. -/
theorem c10_ieee_special_tokens (s : CalcStack) :
    evaluate default_operators "inf" s = (F64.inf :: s, none) ∧
    evaluate default_operators "-inf" s = (F64.negInf :: s, none) ∧
    evaluate default_operators "NaN" s = (F64.nan :: s, none) ∧
    parseF64 "inf" = some F64.inf ∧
    parseF64 "-inf" = some F64.negInf ∧
    parseF64 "NaN" = some F64.nan :=
  ⟨rfl, rfl, rfl, rfl, rfl, rfl⟩

end Rpn
